import Mathlib

/-!
Shallow embedding of the dual moving-average crossover scanner
(src/scanner.py) together with proofs about the behaviour of its core
operations: the crossover detector `calculate_dual_ma_signals`, the
candle fetcher `fetch_candles`, the fan-out fetch stage of
`scan_symbols`, and the validation dispatch of `main`.

Prices and volumes are modelled as exact rationals, timestamps as
integers.  Fallible network interaction is modelled by abstracting the
response a call receives; every pure computation follows the Python
source line by line.
-/

namespace MACross

/-- One OHLCV bar as parsed by `fetch_candles` (columns
`ts, open, high, low, close, volume_base, volume_quote`). -/
structure Candle where
  ts : Int
  open_ : ℚ
  high : ℚ
  low : ℚ
  close : ℚ
  volume_base : ℚ
  volume_quote : ℚ
  deriving DecidableEq

/-- Value of `close_series.rolling(window=w).mean()` at index `i`:
defined (non-NaN) exactly when `1 ≤ w`, `w ≤ i + 1` and `i` is in range;
its value is then the arithmetic mean of the `w` closes ending at `i`.
`none` models NaN. -/
def smaAt (closes : List ℚ) (w : ℕ) (i : ℕ) : Option ℚ :=
  if 1 ≤ w ∧ w ≤ i + 1 ∧ i < closes.length then
    some (((closes.drop (i + 1 - w)).take w).sum / (w : ℚ))
  else none

/-- Direction of a detected crossover. -/
inductive CrossKind
  | golden
  | death
  deriving DecidableEq

/-- Classification of the consecutive index pair `(i-1, i)` by the loop
body of `calculate_dual_ma_signals` (scanner.py lines 451-465): golden
iff `fast[i-1] <= slow[i-1]` and `fast[i] > slow[i]`; death (the `elif`)
iff `fast[i-1] >= slow[i-1]` and `fast[i] < slow[i]`; `none` when any of
the four values is NaN (the loop's `continue`) or no condition fires. -/
def crossAtIdx (closes : List ℚ) (ma_fast ma_slow : ℕ) (i : ℕ) : Option CrossKind :=
  match smaAt closes ma_fast (i - 1), smaAt closes ma_slow (i - 1),
        smaAt closes ma_fast i, smaAt closes ma_slow i with
  | some fp, some sp, some fc, some sc =>
    if fp ≤ sp ∧ sc < fc then some CrossKind.golden
    else if sp ≤ fp ∧ fc < sc then some CrossKind.death
    else none
  | _, _, _, _ => none

/-- The detection loop of scanner.py lines 451-465: `i` (bars ago) runs
over `range(1, min(cross_confirm_bars + 1, n))`, the Python offsets
`-(i+1)` and `-i` address absolute indices `n-1-i` and `n-i`, and the
first hit wins (the `break`).  Returns the kind and the bars-ago
offset recorded in `cross_bars_ago`. -/
def findCross (closes : List ℚ) (ma_fast ma_slow cross_confirm_bars : ℕ) :
    Option (CrossKind × ℕ) :=
  (List.range' 1 (min (cross_confirm_bars + 1) closes.length - 1)).findSome?
    (fun i => (crossAtIdx closes ma_fast ma_slow (closes.length - i)).map
      (fun k => (k, i)))

/-- The recognized values of the K-line position filter strings built in
`create_sidebar`.  `aboveMA p` stands for the string "K线在MA&lt;p&gt;上方",
`aboveMAWithin3 p` for "K线在MA&lt;p&gt;上方且距离<3%", `aboveBoth` for
"K线在双MA上方", the `below*` constructors for the mirrored death-filter
strings, and `noReq` for "无要求" (or any other unmatched string: the
`if/elif` chain then leaves the signal untouched). -/
inductive PriceFilter
  | noReq
  | aboveMA (p : ℕ)
  | aboveBoth
  | aboveMAWithin3 (p : ℕ)
  | belowMA (p : ℕ)
  | belowBoth
  | belowMAWithin3 (p : ℕ)
  deriving DecidableEq

/-- Whether a golden cross survives the position filter chain of
scanner.py lines 470-485.  Each string comparison of the Python `elif`
chain becomes an equality test against the corresponding constructor
applied to the current period, in the same order. -/
def goldenFilterPass (gpf : PriceFilter) (ma_fast ma_slow : ℕ)
    (price_above_fast price_above_slow : Bool)
    (price_deviation_fast price_deviation_slow : ℚ) : Bool :=
  if gpf = PriceFilter.aboveMA ma_fast then price_above_fast
  else if gpf = PriceFilter.aboveMA ma_slow then price_above_slow
  else if gpf = PriceFilter.aboveBoth then price_above_fast && price_above_slow
  else if gpf = PriceFilter.aboveMAWithin3 ma_fast then
    price_above_fast && decide (price_deviation_fast ≤ 3)
  else if gpf = PriceFilter.aboveMAWithin3 ma_slow then
    price_above_slow && decide (price_deviation_slow ≤ 3)
  else true

/-- Whether a death cross survives the position filter chain of
scanner.py lines 488-503. -/
def deathFilterPass (dpf : PriceFilter) (ma_fast ma_slow : ℕ)
    (price_above_fast price_above_slow : Bool)
    (price_deviation_fast price_deviation_slow : ℚ) : Bool :=
  if dpf = PriceFilter.belowMA ma_fast then !price_above_fast
  else if dpf = PriceFilter.belowMA ma_slow then !price_above_slow
  else if dpf = PriceFilter.belowBoth then !price_above_fast && !price_above_slow
  else if dpf = PriceFilter.belowMAWithin3 ma_fast then
    !price_above_fast && decide (price_deviation_fast ≤ 3)
  else if dpf = PriceFilter.belowMAWithin3 ma_slow then
    !price_above_slow && decide (price_deviation_slow ≤ 3)
  else true

/-- The `signal_info` dictionary built by `calculate_dual_ma_signals`. -/
structure SignalInfo where
  ma_fast_current : ℚ
  ma_slow_current : ℚ
  ma_fast_period : ℕ
  ma_slow_period : ℕ
  price_current : ℚ
  golden_cross : Bool
  death_cross : Bool
  cross_bars_ago : Option ℕ
  ma_distance : ℚ
  price_above_fast : Bool
  price_above_slow : Bool
  price_deviation_fast : ℚ
  price_deviation_slow : ℚ
  deriving DecidableEq

/-- `ma_xx_line.iloc[-1]`: the current value of the moving average of
window `w` (defined under the length precondition; 0 is never read). -/
def maCurrent (closes : List ℚ) (w : ℕ) : ℚ :=
  (smaAt closes w (closes.length - 1)).getD 0

/-- `close_series.iloc[-1]`. -/
def priceCurrent (closes : List ℚ) : ℚ :=
  (closes.getLast?).getD 0

/-- `ma_distance` of scanner.py lines 437-438: guarded percentage
distance between the two averages, 0 when the slow average is not
positive. -/
def maDistance (closes : List ℚ) (ma_fast ma_slow : ℕ) : ℚ :=
  if 0 < maCurrent closes ma_slow then
    |maCurrent closes ma_fast - maCurrent closes ma_slow| / maCurrent closes ma_slow * 100
  else 0

/-- `price_deviation_fast` / `price_deviation_slow` of scanner.py lines
445-448: guarded percentage distance of the last close from the average
of window `w`, 0 when that average is not positive. -/
def priceDeviation (closes : List ℚ) (w : ℕ) : ℚ :=
  if 0 < maCurrent closes w then
    |priceCurrent closes - maCurrent closes w| / maCurrent closes w * 100
  else 0

/-- The `signal_info` dictionary as it stands after the crossover scan
(scanner.py lines 420-465), before the optional position filter. -/
def rawSignalInfo (closes : List ℚ) (ma_fast ma_slow cross_confirm_bars : ℕ) :
    SignalInfo where
  ma_fast_current := maCurrent closes ma_fast
  ma_slow_current := maCurrent closes ma_slow
  ma_fast_period := ma_fast
  ma_slow_period := ma_slow
  price_current := priceCurrent closes
  golden_cross :=
    match findCross closes ma_fast ma_slow cross_confirm_bars with
    | some (CrossKind.golden, _) => true
    | _ => false
  death_cross :=
    match findCross closes ma_fast ma_slow cross_confirm_bars with
    | some (CrossKind.death, _) => true
    | _ => false
  cross_bars_ago := (findCross closes ma_fast ma_slow cross_confirm_bars).map Prod.snd
  ma_distance := maDistance closes ma_fast ma_slow
  price_above_fast := decide (maCurrent closes ma_fast < priceCurrent closes)
  price_above_slow := decide (maCurrent closes ma_slow < priceCurrent closes)
  price_deviation_fast := priceDeviation closes ma_fast
  price_deviation_slow := priceDeviation closes ma_slow

/-- The position filter of scanner.py lines 468-503: when enabled it may
clear `golden_cross` / `death_cross` (and touches nothing else, in
particular not `cross_bars_ago`). -/
def applyPriceFilter (enable_price_filter : Bool)
    (golden_price_filter death_price_filter : PriceFilter)
    (si : SignalInfo) : SignalInfo :=
  { si with
    golden_cross :=
      if enable_price_filter && si.golden_cross then
        si.golden_cross &&
          goldenFilterPass golden_price_filter si.ma_fast_period si.ma_slow_period
            si.price_above_fast si.price_above_slow
            si.price_deviation_fast si.price_deviation_slow
      else si.golden_cross
    death_cross :=
      if enable_price_filter && si.death_cross then
        si.death_cross &&
          deathFilterPass death_price_filter si.ma_fast_period si.ma_slow_period
            si.price_above_fast si.price_above_slow
            si.price_deviation_fast si.price_deviation_slow
      else si.death_cross }

/-- `calculate_dual_ma_signals` (scanner.py lines 397-509).  Returns
`(None, candle_count)` when the series is shorter than
`max(ma_fast, ma_slow) + 10` or when one of the rolling-mean series is
entirely NaN (which, under the length guard, happens exactly for a zero
window, where pandas produces an all-NaN column); otherwise the filled
`signal_info` plus the candle count. -/
def calculate_dual_ma_signals (closes : List ℚ)
    (ma_fast ma_slow cross_confirm_bars : ℕ) (enable_price_filter : Bool)
    (golden_price_filter death_price_filter : PriceFilter) :
    Option SignalInfo × ℕ :=
  if closes.length < max ma_fast ma_slow + 10 then (none, closes.length)
  else if ((List.range closes.length).all fun i => (smaAt closes ma_fast i).isNone)
      || ((List.range closes.length).all fun i => (smaAt closes ma_slow i).isNone) then
    (none, closes.length)
  else
    (some (applyPriceFilter enable_price_filter golden_price_filter death_price_filter
      (rawSignalInfo closes ma_fast ma_slow cross_confirm_bars)), closes.length)

/-- Ordering of candles by timestamp, the key of
`df.sort_values("ts")` in `fetch_candles`. -/
def tsLe (a b : Candle) : Prop := a.ts ≤ b.ts

instance : DecidableRel tsLe := fun a b => inferInstanceAs (Decidable (a.ts ≤ b.ts))

instance : IsTotal Candle tsLe := ⟨fun a b => Int.le_total a.ts b.ts⟩

instance : IsTrans Candle tsLe := ⟨fun _ _ _ h1 h2 => le_trans h1 h2⟩

/-- Outcome of the HTTP interaction performed by `fetch_candles`
(scanner.py lines 294-319): the request may raise (transport error), the
payload may fail to parse into the seven columns (the `astype` /
`DataFrame` constructor raises), or a parsed body with an API status
code and the candle rows is obtained. -/
inductive CandlesResponse
  | httpError
  | badPayload
  | ok (code : String) (rows : List Candle)

/-- `fetch_candles`: any raised error is caught and becomes an empty
frame, a non-success API code returns an empty frame, and a successful
response is sorted ascending by timestamp.  `sort_values` only sorts (no
deduplication); the relative order of equal timestamps is not relied
upon anywhere, so the sort is modelled by the stable insertion sort. -/
def fetch_candles (resp : CandlesResponse) : List Candle :=
  match resp with
  | CandlesResponse.httpError => []
  | CandlesResponse.badPayload => []
  | CandlesResponse.ok code rows =>
    if code = "00000" then rows.insertionSort tsLe else []

/-- Final contents of the `candle_data` dictionary built by the
fan-out fetch loop of `scan_symbols` (scanner.py lines 688-706): every
symbol is submitted exactly once, and a symbol is inserted iff its
fetched frame is non-empty (`if not df.empty`).  Each key is written at
most once, so the final contents do not depend on the completion order
of the futures and are modelled in submission order. -/
def fetchStage (symbols : List String) (fetch : String → List Candle) :
    List (String × List Candle) :=
  symbols.filterMap (fun sym =>
    if (fetch sym).isEmpty then none else some (sym, fetch sym))

/-- The two entries of the `signal_types` multiselect
("金叉信号" / "死叉信号"). -/
inductive SignalType
  | goldenSignal
  | deathSignal
  deriving DecidableEq

/-- What `main` does right after the scan button is pressed. -/
inductive ScanAction
  | errorNoSignalType
  | errorFastGeSlow
  | proceedToNetwork
  deriving DecidableEq

/-- Control flow of `main` at scanner.py lines 896-913: first the empty
`signal_types` check, then the `ma_fast >= ma_slow` check, each showing
an error and returning; only the final branch enters the `try` block
that calls `get_working_endpoint`, `get_usdt_symbols` and
`scan_symbols` (i.e. performs network work). -/
def main_scan_dispatch (signal_types : List SignalType) (ma_fast ma_slow : ℕ) :
    ScanAction :=
  if signal_types.isEmpty then ScanAction.errorNoSignalType
  else if ma_slow ≤ ma_fast then ScanAction.errorFastGeSlow
  else ScanAction.proceedToNetwork

/-! ### Concrete series used as witnesses and counterexamples -/

/-- 14 closes with a golden crossover of MA1 over MA2 four bars ago and
a death crossover one bar ago. -/
def exC : List ℚ := [10, 10, 10, 10, 10, 10, 10, 10, 10, 9, 12, 12, 12, 11]

/-- 14 closes with a golden crossover of MA1 over MA2 at the last pair. -/
def exC1 : List ℚ := [5, 5, 5, 5, 5, 5, 5, 5, 5, 5, 5, 5, 4, 6]

/-- 12 closes with a golden crossover of MA1 over MA2 one bar ago whose
closing price is not strictly above the fast average. -/
def exC4 : List ℚ := [10, 10, 10, 10, 10, 10, 10, 10, 10, 10, 9, 12]

/-- The unfiltered detection result on `exC4` with MA1/MA2 and a
2-bar confirmation window. -/
def exC4si : SignalInfo where
  ma_fast_current := 12
  ma_slow_current := 21 / 2
  ma_fast_period := 1
  ma_slow_period := 2
  price_current := 12
  golden_cross := true
  death_cross := false
  cross_bars_ago := some 1
  ma_distance := 100 / 7
  price_above_fast := false
  price_above_slow := true
  price_deviation_fast := 0
  price_deviation_slow := 100 / 7

/-- Same as `exC4si` after the "K线在双MA上方" golden filter clears the
signal flag. -/
def exC4siF : SignalInfo := { exC4si with golden_cross := false }

/-- A degenerate all-zero series of the minimum admissible length. -/
def exZeros : List ℚ := List.replicate 12 0

/-- The detection result on `exZeros` with MA1/MA2: every guarded
percentage is 0 and no crossover fires. -/
def zeroSi : SignalInfo where
  ma_fast_current := 0
  ma_slow_current := 0
  ma_fast_period := 1
  ma_slow_period := 2
  price_current := 0
  golden_cross := false
  death_cross := false
  cross_bars_ago := none
  ma_distance := 0
  price_above_fast := false
  price_above_slow := false
  price_deviation_fast := 0
  price_deviation_slow := 0

/-- Two distinct candles sharing one timestamp. -/
def dupTsRows : List Candle :=
  [⟨1, 10, 10, 10, 10, 1, 1⟩, ⟨1, 20, 20, 20, 20, 1, 1⟩]

/-- Two candles with distinct timestamps, given out of order. -/
def ascRows : List Candle :=
  [⟨2, 10, 10, 10, 10, 1, 1⟩, ⟨1, 20, 20, 20, 20, 1, 1⟩]

/-- A fixed non-trivial candle for fetch-stage witnesses. -/
def oneCandle : Candle := ⟨0, 1, 1, 1, 1, 1, 1⟩

/-! ### Helper lemmas -/

theorem sum_drop_take (l : List ℚ) : ∀ (w a : ℕ), a + w ≤ l.length →
    ((l.drop a).take w).sum = ∑ j ∈ Finset.range w, l.getD (a + j) 0 := by
  intro w
  induction w with
  | zero => intro a _; simp
  | succ m ih =>
    intro a ha
    have haL : a < l.length := by omega
    rw [List.drop_eq_getElem_cons haL, List.take_succ_cons, List.sum_cons,
      ih (a + 1) (by omega), Finset.sum_range_succ']
    rw [add_comm]
    congr 1
    · apply Finset.sum_congr rfl
      intro j _
      congr 1
      omega
    · rw [List.getD_eq_getElem l 0 (show a + 0 < l.length by omega)]
      simp

/-- Moving average as the spec words it: the simple arithmetic mean of
the close price over the trailing `w` bars ending at index `i`. -/
def specSMA (closes : List ℚ) (w : ℕ) (i : ℕ) : ℚ :=
  (∑ j ∈ Finset.range w, closes.getD (i + 1 - w + j) 0) / (w : ℚ)

theorem smaAt_eq_specSMA (closes : List ℚ) (w i : ℕ) (h1 : 1 ≤ w)
    (h2 : w ≤ i + 1) (h3 : i < closes.length) :
    smaAt closes w i = some (specSMA closes w i) := by
  unfold smaAt specSMA
  rw [if_pos ⟨h1, h2, h3⟩]
  congr 1
  rw [sum_drop_take closes w (i + 1 - w) (by omega)]

theorem findSome?_range'_first {β : Type} (g : ℕ → Option β) :
    ∀ (m start : ℕ) (b : β), (List.range' start m).findSome? g = some b →
      ∃ i, start ≤ i ∧ i < start + m ∧ g i = some b ∧
        ∀ j, start ≤ j → j < i → g j = none := by
  intro m
  induction m with
  | zero =>
    intro start b h
    simp [List.range'] at h
  | succ m ih =>
    intro start b h
    rw [show List.range' start (m + 1) = start :: List.range' (start + 1) m from rfl] at h
    cases hg : g start with
    | some b0 =>
      refine ⟨start, le_refl start, by omega, ?_, fun j h1 h2 => absurd h1 (by omega)⟩
      simp only [List.findSome?_cons, hg] at h
      rw [hg, h]
    | none =>
      simp only [List.findSome?_cons, hg] at h
      obtain ⟨i, hi1, hi2, hi3, hi4⟩ := ih (start + 1) b h
      refine ⟨i, by omega, by omega, hi3, fun j h1 h2 => ?_⟩
      by_cases hj : j = start
      · subst hj
        exact hg
      · exact hi4 j (by omega) h2

theorem calculate_some_shape (closes : List ℚ)
    (ma_fast ma_slow cross_confirm_bars : ℕ) (enable_price_filter : Bool)
    (golden_price_filter death_price_filter : PriceFilter) (si : SignalInfo)
    (h : (calculate_dual_ma_signals closes ma_fast ma_slow cross_confirm_bars
      enable_price_filter golden_price_filter death_price_filter).1 = some si) :
    si = applyPriceFilter enable_price_filter golden_price_filter death_price_filter
      (rawSignalInfo closes ma_fast ma_slow cross_confirm_bars) := by
  unfold calculate_dual_ma_signals at h
  split_ifs at h
  all_goals simp at h
  exact h.symm

theorem goldenFilterPass_noReq (ma_fast ma_slow : ℕ) (paf pas : Bool)
    (pdf pds : ℚ) :
    goldenFilterPass PriceFilter.noReq ma_fast ma_slow paf pas pdf pds = true := rfl

theorem deathFilterPass_noReq (ma_fast ma_slow : ℕ) (paf pas : Bool)
    (pdf pds : ℚ) :
    deathFilterPass PriceFilter.noReq ma_fast ma_slow paf pas pdf pds = true := rfl

theorem applyPriceFilter_disabled (gpf dpf : PriceFilter) (si : SignalInfo) :
    applyPriceFilter false gpf dpf si = si := rfl

theorem applyPriceFilter_noReq (epf : Bool) (si : SignalInfo) :
    applyPriceFilter epf PriceFilter.noReq PriceFilter.noReq si = si := by
  unfold applyPriceFilter
  rw [goldenFilterPass_noReq, deathFilterPass_noReq, Bool.and_true, Bool.and_true,
    ite_self, ite_self]

theorem applyPriceFilter_golden_mono (epf : Bool) (gpf dpf : PriceFilter)
    (si : SignalInfo)
    (h : (applyPriceFilter epf gpf dpf si).golden_cross = true) :
    si.golden_cross = true := by
  cases hg : si.golden_cross
  · simp [applyPriceFilter, hg] at h
  · rfl

theorem applyPriceFilter_death_mono (epf : Bool) (gpf dpf : PriceFilter)
    (si : SignalInfo)
    (h : (applyPriceFilter epf gpf dpf si).death_cross = true) :
    si.death_cross = true := by
  cases hd : si.death_cross
  · simp [applyPriceFilter, hd] at h
  · rfl

theorem applyPriceFilter_bars (epf : Bool) (gpf dpf : PriceFilter)
    (si : SignalInfo) :
    (applyPriceFilter epf gpf dpf si).cross_bars_ago = si.cross_bars_ago := rfl

theorem rawSignalInfo_not_both (closes : List ℚ) (ma_fast ma_slow cb : ℕ) :
    ¬((rawSignalInfo closes ma_fast ma_slow cb).golden_cross = true ∧
      (rawSignalInfo closes ma_fast ma_slow cb).death_cross = true) := by
  intro h
  obtain ⟨hg, hd⟩ := h
  simp only [rawSignalInfo] at hg hd
  cases hfc : findCross closes ma_fast ma_slow cb with
  | none =>
    rw [hfc] at hg
    simp at hg
  | some kj =>
    obtain ⟨k, j⟩ := kj
    rw [hfc] at hg hd
    cases k
    · simp at hd
    · simp at hg

theorem rawSignalInfo_bars_iff (closes : List ℚ) (ma_fast ma_slow cb : ℕ) :
    (rawSignalInfo closes ma_fast ma_slow cb).cross_bars_ago = none ↔
      ((rawSignalInfo closes ma_fast ma_slow cb).golden_cross = false ∧
       (rawSignalInfo closes ma_fast ma_slow cb).death_cross = false) := by
  simp only [rawSignalInfo]
  cases hfc : findCross closes ma_fast ma_slow cb with
  | none => simp
  | some kj =>
    obtain ⟨k, j⟩ := kj
    cases k <;> simp

/-! ### Claim theorems -/

/-- C1: for every long-enough series and every consecutive pair of
indices at which both moving averages are defined, the detector's
pairwise classification reports a bullish (golden) crossover at `i`
exactly when `fastMA[i-1] ≤ slowMA[i-1]` and `fastMA[i] > slowMA[i]`,
and a bearish (death) crossover exactly when `fastMA[i-1] ≥ slowMA[i-1]`
and `fastMA[i] < slowMA[i]`, where the two averages are the simple
arithmetic means of the close over the trailing fast/slow windows. -/
theorem cross_classification (closes : List ℚ) (ma_fast ma_slow i : ℕ)
    (_hlen : max ma_fast ma_slow + 10 ≤ closes.length)
    (hi : 1 ≤ i) (hin : i < closes.length)
    (hf : 1 ≤ ma_fast) (hs : 1 ≤ ma_slow)
    (hfi : ma_fast ≤ i) (hsi : ma_slow ≤ i) :
    (crossAtIdx closes ma_fast ma_slow i = some CrossKind.golden ↔
      (specSMA closes ma_fast (i - 1) ≤ specSMA closes ma_slow (i - 1) ∧
        specSMA closes ma_slow i < specSMA closes ma_fast i)) ∧
    (crossAtIdx closes ma_fast ma_slow i = some CrossKind.death ↔
      (specSMA closes ma_slow (i - 1) ≤ specSMA closes ma_fast (i - 1) ∧
        specSMA closes ma_fast i < specSMA closes ma_slow i)) := by
  have h1 := smaAt_eq_specSMA closes ma_fast (i - 1) hf (by omega) (by omega)
  have h2 := smaAt_eq_specSMA closes ma_slow (i - 1) hs (by omega) (by omega)
  have h3 := smaAt_eq_specSMA closes ma_fast i hf (by omega) hin
  have h4 := smaAt_eq_specSMA closes ma_slow i hs (by omega) hin
  simp only [crossAtIdx, h1, h2, h3, h4]
  split_ifs with hA hB
  · refine ⟨⟨fun _ => hA, fun _ => rfl⟩, ⟨fun h => by simp at h, fun hB2 => ?_⟩⟩
    exact absurd hB2.2 (not_lt.mpr hA.2.le)
  · refine ⟨⟨fun h => by simp at h, fun hA2 => absurd hA2 hA⟩,
      ⟨fun _ => hB, fun _ => rfl⟩⟩
  · refine ⟨⟨fun h => by simp at h, fun hA2 => absurd hA2 hA⟩,
      ⟨fun h => by simp at h, fun hB2 => absurd hB2 hB⟩⟩

/-- Witness for C1: on `exC1` with MA1/MA2 the spec-side crossover
conditions hold at the last pair, so the classification is golden. -/
theorem cross_classification_witness :
    crossAtIdx exC1 1 2 13 = some CrossKind.golden :=
  (cross_classification exC1 1 2 13 (by decide) (by decide) (by decide)
    (by decide) (by decide) (by decide) (by decide)).1.mpr
    (by norm_num [specSMA, exC1, Finset.sum_range_succ, List.getD])

/-- C2: when the scan reports a crossover `(k, j)`, the pair `j` bars
ago indeed classifies as `k`, every strictly nearer pair inside the
window classifies as no crossover (nearest wins), `j` lies inside the
lookback window, and no detection result ever carries both directions
at once. -/
theorem nearest_cross_wins (closes : List ℚ)
    (ma_fast ma_slow cross_confirm_bars : ℕ) (k : CrossKind) (j : ℕ)
    (h : findCross closes ma_fast ma_slow cross_confirm_bars = some (k, j)) :
    crossAtIdx closes ma_fast ma_slow (closes.length - j) = some k ∧
    (∀ i, 1 ≤ i → i < j →
      crossAtIdx closes ma_fast ma_slow (closes.length - i) = none) ∧
    1 ≤ j ∧ j < min (cross_confirm_bars + 1) closes.length ∧
    (∀ (epf : Bool) (gpf dpf : PriceFilter) (si : SignalInfo),
      (calculate_dual_ma_signals closes ma_fast ma_slow cross_confirm_bars
        epf gpf dpf).1 = some si →
      ¬(si.golden_cross = true ∧ si.death_cross = true)) := by
  unfold findCross at h
  obtain ⟨i, hi1, hi2, hi3, hi4⟩ := findSome?_range'_first _ _ _ _ h
  obtain ⟨a, ha1, ha2⟩ := Option.map_eq_some'.mp hi3
  have hak : a = k := congrArg Prod.fst ha2
  have hij : i = j := congrArg Prod.snd ha2
  subst hak hij
  refine ⟨ha1, fun i' p1 p2 => Option.map_eq_none'.mp (hi4 i' p1 p2), hi1,
    by omega, ?_⟩
  intro epf gpf dpf si hsi hboth
  have hshape := calculate_some_shape closes ma_fast ma_slow cross_confirm_bars
    epf gpf dpf si hsi
  rw [hshape] at hboth
  exact rawSignalInfo_not_both closes ma_fast ma_slow cross_confirm_bars
    ⟨applyPriceFilter_golden_mono _ _ _ _ hboth.1,
     applyPriceFilter_death_mono _ _ _ _ hboth.2⟩

/-- Witness for C2: `exC` has a golden crossover 4 bars ago and a death
crossover 1 bar ago; with a 5-bar lookback the scan returns the death
crossover with bars-ago 1 (the chronologically nearest one), and the
winning offset indeed classifies as death. -/
theorem nearest_cross_wins_witness :
    crossAtIdx exC 1 2 (exC.length - 4) = some CrossKind.golden ∧
    findCross exC 1 2 5 = some (CrossKind.death, 1) ∧
    crossAtIdx exC 1 2 (exC.length - 1) = some CrossKind.death := by
  have hfind : findCross exC 1 2 5 = some (CrossKind.death, 1) := by
    norm_num [findCross, crossAtIdx, smaAt, exC, List.range', List.findSome?]
  refine ⟨?_, hfind, (nearest_cross_wins exC 1 2 5 CrossKind.death 1 hfind).1⟩
  norm_num [crossAtIdx, smaAt, exC]

/-- C4 counterexample: on `exC4` a golden crossover one bar ago is found
but the "K线在双MA上方" position filter clears the flag, so the detector
returns a result whose direction is none while `cross_bars_ago` is still
`some 1` — the bars-since field is not nil although no direction is
reported. -/
theorem bars_ago_without_direction :
    ((calculate_dual_ma_signals exC4 1 2 2 true PriceFilter.aboveBoth
        PriceFilter.noReq).1.map
      (fun si => (si.golden_cross, si.death_cross, si.cross_bars_ago))) =
      some (false, false, some 1) := by
  unfold calculate_dual_ma_signals
  rw [if_neg (by decide), if_neg (by decide)]
  norm_num [rawSignalInfo, applyPriceFilter, findCross, crossAtIdx, smaAt,
    maCurrent, maDistance, priceDeviation, priceCurrent, goldenFilterPass,
    deathFilterPass, exC4, List.range', List.findSome?, abs_of_pos]
  exact fun _ => by decide

/-- C4 amended: whenever the detector reports a direction the bars-since
field is set, and whenever the bars-since field is nil no direction is
reported; the full equivalence between "direction none" and "bars-since
nil" holds when the price filter is disabled, but with the filter
enabled a suppressed crossover leaves direction none with bars-since
still set. -/
theorem bars_ago_direction_link (closes : List ℚ)
    (ma_fast ma_slow cross_confirm_bars : ℕ) (epf : Bool)
    (gpf dpf : PriceFilter) (si : SignalInfo)
    (h : (calculate_dual_ma_signals closes ma_fast ma_slow cross_confirm_bars
      epf gpf dpf).1 = some si) :
    ((si.golden_cross = true ∨ si.death_cross = true) →
      si.cross_bars_ago ≠ none) ∧
    (si.cross_bars_ago = none →
      si.golden_cross = false ∧ si.death_cross = false) ∧
    (epf = false →
      (si.cross_bars_ago = none ↔
        (si.golden_cross = false ∧ si.death_cross = false))) := by
  have hshape := calculate_some_shape closes ma_fast ma_slow cross_confirm_bars
    epf gpf dpf si h
  subst hshape
  refine ⟨?_, ?_, ?_⟩
  · intro hdir hnone
    rw [applyPriceFilter_bars] at hnone
    have hraw := (rawSignalInfo_bars_iff closes ma_fast ma_slow
      cross_confirm_bars).mp hnone
    cases hdir with
    | inl hg =>
      have := applyPriceFilter_golden_mono _ _ _ _ hg
      rw [hraw.1] at this
      simp at this
    | inr hd =>
      have := applyPriceFilter_death_mono _ _ _ _ hd
      rw [hraw.2] at this
      simp at this
  · intro hnone
    rw [applyPriceFilter_bars] at hnone
    have hraw := (rawSignalInfo_bars_iff closes ma_fast ma_slow
      cross_confirm_bars).mp hnone
    constructor
    · cases hg : (applyPriceFilter epf gpf dpf
        (rawSignalInfo closes ma_fast ma_slow cross_confirm_bars)).golden_cross
      · rfl
      · have := applyPriceFilter_golden_mono _ _ _ _ hg
        rw [hraw.1] at this
        simp at this
    · cases hd : (applyPriceFilter epf gpf dpf
        (rawSignalInfo closes ma_fast ma_slow cross_confirm_bars)).death_cross
      · rfl
      · have := applyPriceFilter_death_mono _ _ _ _ hd
        rw [hraw.2] at this
        simp at this
  · intro hepf
    subst hepf
    rw [applyPriceFilter_disabled]
    exact rawSignalInfo_bars_iff closes ma_fast ma_slow cross_confirm_bars

/-- Witness for C4 (amended): on `exC4` with the filter disabled the
detector reports golden with bars-since set. -/
theorem bars_ago_direction_link_witness :
    exC4si.cross_bars_ago ≠ none := by
  have hcalc : (calculate_dual_ma_signals exC4 1 2 2 false PriceFilter.noReq
      PriceFilter.noReq).1 = some exC4si := by
    unfold calculate_dual_ma_signals
    rw [if_neg (by decide), if_neg (by decide)]
    norm_num [rawSignalInfo, applyPriceFilter, findCross, crossAtIdx, smaAt,
      maCurrent, maDistance, priceDeviation, priceCurrent, goldenFilterPass,
      deathFilterPass, exC4, exC4si, List.range', List.findSome?, abs_of_pos]
  exact (bars_ago_direction_link exC4 1 2 2 false PriceFilter.noReq
    PriceFilter.noReq exC4si hcalc).1 (Or.inl rfl)

/-- C8: for every series passing the length precondition, the percentage
fields are guarded: if the current slow average is not positive then
both the MA-distance and the slow price deviation are reported as 0, and
if the current fast average is not positive then the fast price
deviation is reported as 0 (the total embedding never divides by a
guarded zero). -/
theorem zero_ma_guards (closes : List ℚ)
    (ma_fast ma_slow cross_confirm_bars : ℕ) (epf : Bool)
    (gpf dpf : PriceFilter) (si : SignalInfo)
    (h : (calculate_dual_ma_signals closes ma_fast ma_slow cross_confirm_bars
      epf gpf dpf).1 = some si) :
    (si.ma_slow_current ≤ 0 →
      si.ma_distance = 0 ∧ si.price_deviation_slow = 0) ∧
    (si.ma_fast_current ≤ 0 → si.price_deviation_fast = 0) := by
  have hshape := calculate_some_shape closes ma_fast ma_slow cross_confirm_bars
    epf gpf dpf si h
  subst hshape
  refine ⟨fun hs => ⟨?_, ?_⟩, fun hf => ?_⟩
  · show maDistance closes ma_fast ma_slow = 0
    unfold maDistance
    rw [if_neg (not_lt.mpr (show maCurrent closes ma_slow ≤ 0 from hs))]
  · show priceDeviation closes ma_slow = 0
    unfold priceDeviation
    rw [if_neg (not_lt.mpr (show maCurrent closes ma_slow ≤ 0 from hs))]
  · show priceDeviation closes ma_fast = 0
    unfold priceDeviation
    rw [if_neg (not_lt.mpr (show maCurrent closes ma_fast ≤ 0 from hf))]

/-- Witness for C8 on the all-zero series: both averages are 0, so all
guarded percentages are 0. -/
theorem zero_ma_guards_witness :
    zeroSi.ma_distance = 0 ∧ zeroSi.price_deviation_slow = 0 := by
  have hcalc : (calculate_dual_ma_signals exZeros 1 2 2 false PriceFilter.noReq
      PriceFilter.noReq).1 = some zeroSi := by
    unfold calculate_dual_ma_signals
    rw [if_neg (by decide), if_neg (by decide)]
    norm_num [rawSignalInfo, applyPriceFilter, findCross, crossAtIdx, smaAt,
      maCurrent, maDistance, priceDeviation, priceCurrent, goldenFilterPass,
      deathFilterPass, exZeros, zeroSi, List.range', List.findSome?,
      List.replicate]
  exact (zero_ma_guards exZeros 1 2 2 false PriceFilter.noReq PriceFilter.noReq
    zeroSi hcalc).1 (le_refl 0)

/-- C3: a series shorter than `max(fast, slow) + 10` bars yields the
insufficient-data outcome (no signal dictionary, hence direction none)
together with the bar count; the definition is total, so no error can
be raised on short input. -/
theorem short_series_insufficient (closes : List ℚ)
    (ma_fast ma_slow cross_confirm_bars : ℕ) (enable_price_filter : Bool)
    (golden_price_filter death_price_filter : PriceFilter)
    (h : closes.length < max ma_fast ma_slow + 10) :
    calculate_dual_ma_signals closes ma_fast ma_slow cross_confirm_bars
      enable_price_filter golden_price_filter death_price_filter =
      (none, closes.length) := by
  unfold calculate_dual_ma_signals
  rw [if_pos h]

/-- Witness for C3 on an 11-bar series with MA1/MA2. -/
theorem short_series_insufficient_witness :
    calculate_dual_ma_signals (List.replicate 11 1) 1 2 2 false
      PriceFilter.noReq PriceFilter.noReq = (none, 11) := by
  have h := short_series_insufficient (List.replicate 11 1) 1 2 2 false
    PriceFilter.noReq PriceFilter.noReq (by decide)
  simpa using h

/-- C7: `fetch_candles` never propagates a failure to its caller: a
transport error, a malformed payload and a non-success API status code
all produce the empty series. -/
theorem fetch_candles_failure_empty (code : String) (rows : List Candle)
    (h : code ≠ "00000") :
    fetch_candles CandlesResponse.httpError = [] ∧
    fetch_candles CandlesResponse.badPayload = [] ∧
    fetch_candles (CandlesResponse.ok code rows) = [] := by
  refine ⟨rfl, rfl, ?_⟩
  show (if code = "00000" then rows.insertionSort tsLe else []) = []
  rw [if_neg h]

/-- Witness for C7 at the concrete non-success code "40001". -/
theorem fetch_candles_failure_empty_witness :
    fetch_candles (CandlesResponse.ok "40001" dupTsRows) = [] :=
  (fetch_candles_failure_empty "40001" dupTsRows (by decide)).2.2

/-- C9: after the scan button is pressed, both validation checks are
decided before any network work: an empty signal-type selection and a
fast period not smaller than the slow period each surface their error
and return, and the network-touching branch is entered exactly when
both validations pass. -/
theorem validation_before_network (signal_types : List SignalType)
    (ma_fast ma_slow : ℕ) :
    (signal_types = [] →
      main_scan_dispatch signal_types ma_fast ma_slow =
        ScanAction.errorNoSignalType) ∧
    (signal_types ≠ [] → ma_slow ≤ ma_fast →
      main_scan_dispatch signal_types ma_fast ma_slow =
        ScanAction.errorFastGeSlow) ∧
    (main_scan_dispatch signal_types ma_fast ma_slow =
        ScanAction.proceedToNetwork ↔
      (signal_types ≠ [] ∧ ma_fast < ma_slow)) := by
  unfold main_scan_dispatch
  refine ⟨?_, ?_, ?_⟩
  · intro h
    subst h
    rfl
  · intro h1 h2
    rw [if_neg (by simpa using h1), if_pos h2]
  · constructor
    · intro h
      by_cases he : signal_types.isEmpty
      · rw [if_pos he] at h
        simp at h
      · rw [if_neg he] at h
        by_cases hle : ma_slow ≤ ma_fast
        · rw [if_pos hle] at h
          simp at h
        · exact ⟨by simpa using he, by omega⟩
    · intro h
      rw [if_neg (by simpa using h.1), if_neg (by omega)]

/-- Witness for C9: both error cases and the proceed case at concrete
parameter choices. -/
theorem validation_before_network_witness :
    main_scan_dispatch [] 20 70 = ScanAction.errorNoSignalType ∧
    main_scan_dispatch [SignalType.goldenSignal] 70 20 =
      ScanAction.errorFastGeSlow ∧
    main_scan_dispatch [SignalType.goldenSignal] 20 70 =
      ScanAction.proceedToNetwork :=
  ⟨(validation_before_network [] 20 70).1 rfl,
    (validation_before_network [SignalType.goldenSignal] 70 20).2.1
      (by decide) (by decide),
    (validation_before_network [SignalType.goldenSignal] 20 70).2.2.mpr
      ⟨by decide, by decide⟩⟩

/-- C10: enabling the price-position filter never creates a signal: the
candle count and the none/some status agree with the unfiltered run; a
direction flag set in the filtered result is also set in the unfiltered
result while every other field (including bars-since) coincides, so the
filtered signal set is a subset of the unfiltered one; and with both
filters at "无要求" the filtered run is identical to the unfiltered
one. -/
theorem price_filter_only_removes (closes : List ℚ)
    (ma_fast ma_slow cross_confirm_bars : ℕ) (gpf dpf : PriceFilter) :
    (calculate_dual_ma_signals closes ma_fast ma_slow cross_confirm_bars
        true gpf dpf).2 =
      (calculate_dual_ma_signals closes ma_fast ma_slow cross_confirm_bars
        false gpf dpf).2 ∧
    ((calculate_dual_ma_signals closes ma_fast ma_slow cross_confirm_bars
        true gpf dpf).1 = none ↔
      (calculate_dual_ma_signals closes ma_fast ma_slow cross_confirm_bars
        false gpf dpf).1 = none) ∧
    (∀ si0 si1,
      (calculate_dual_ma_signals closes ma_fast ma_slow cross_confirm_bars
        false gpf dpf).1 = some si0 →
      (calculate_dual_ma_signals closes ma_fast ma_slow cross_confirm_bars
        true gpf dpf).1 = some si1 →
      si1.cross_bars_ago = si0.cross_bars_ago ∧
      (si1.golden_cross = true → si0.golden_cross = true) ∧
      (si1.death_cross = true → si0.death_cross = true) ∧
      si1.ma_fast_current = si0.ma_fast_current ∧
      si1.ma_slow_current = si0.ma_slow_current ∧
      si1.ma_fast_period = si0.ma_fast_period ∧
      si1.ma_slow_period = si0.ma_slow_period ∧
      si1.price_current = si0.price_current ∧
      si1.ma_distance = si0.ma_distance ∧
      si1.price_above_fast = si0.price_above_fast ∧
      si1.price_above_slow = si0.price_above_slow ∧
      si1.price_deviation_fast = si0.price_deviation_fast ∧
      si1.price_deviation_slow = si0.price_deviation_slow) ∧
    calculate_dual_ma_signals closes ma_fast ma_slow cross_confirm_bars
        true PriceFilter.noReq PriceFilter.noReq =
      calculate_dual_ma_signals closes ma_fast ma_slow cross_confirm_bars
        false PriceFilter.noReq PriceFilter.noReq := by
  refine ⟨?_, ?_, ?_, ?_⟩
  · unfold calculate_dual_ma_signals
    split_ifs <;> rfl
  · unfold calculate_dual_ma_signals
    split_ifs <;> simp
  · intro si0 si1 h0 h1
    have e0 := calculate_some_shape closes ma_fast ma_slow cross_confirm_bars
      false gpf dpf si0 h0
    have e1 := calculate_some_shape closes ma_fast ma_slow cross_confirm_bars
      true gpf dpf si1 h1
    rw [applyPriceFilter_disabled] at e0
    subst e0 e1
    exact ⟨rfl, applyPriceFilter_golden_mono _ _ _ _,
      applyPriceFilter_death_mono _ _ _ _, rfl, rfl, rfl, rfl, rfl, rfl, rfl,
      rfl, rfl, rfl⟩
  · unfold calculate_dual_ma_signals
    split_ifs <;> try rfl
    rw [applyPriceFilter_noReq, applyPriceFilter_disabled]

/-- Witness for C10 on `exC4` with the "K线在双MA上方" golden filter: the
filtered run still carries the bars-since field of the unfiltered
run. -/
theorem price_filter_only_removes_witness :
    exC4siF.cross_bars_ago = exC4si.cross_bars_ago := by
  have h0 : (calculate_dual_ma_signals exC4 1 2 2 false PriceFilter.aboveBoth
      PriceFilter.noReq).1 = some exC4si := by
    unfold calculate_dual_ma_signals
    rw [if_neg (by decide), if_neg (by decide)]
    norm_num [rawSignalInfo, applyPriceFilter, findCross, crossAtIdx, smaAt,
      maCurrent, maDistance, priceDeviation, priceCurrent, goldenFilterPass,
      deathFilterPass, exC4, exC4si, List.range', List.findSome?, abs_of_pos]
  have h1 : (calculate_dual_ma_signals exC4 1 2 2 true PriceFilter.aboveBoth
      PriceFilter.noReq).1 = some exC4siF := by
    unfold calculate_dual_ma_signals
    rw [if_neg (by decide), if_neg (by decide)]
    norm_num [rawSignalInfo, applyPriceFilter, findCross, crossAtIdx, smaAt,
      maCurrent, maDistance, priceDeviation, priceCurrent, goldenFilterPass,
      deathFilterPass, exC4, exC4si, exC4siF, List.range', List.findSome?,
      abs_of_pos]
    exact fun _ => by decide
  exact ((price_filter_only_removes exC4 1 2 2 PriceFilter.aboveBoth
    PriceFilter.noReq).2.2.1 exC4si exC4siF h0 h1).1

/-- C5 counterexample: a single instrument whose fetch fails (empty
series) produces an empty results mapping — not one entry per
instrument. -/
theorem fetch_stage_omits_failures :
    fetchStage ["BTCUSDT"] (fun _ => ([] : List Candle)) = [] ∧
    (fetchStage ["BTCUSDT"] (fun _ => ([] : List Candle))).length ≠
      (["BTCUSDT"] : List String).length := ⟨rfl, by decide⟩

/-- C5 amended: the fetch stage produces exactly one entry per
instrument whose fetch returned a non-empty series, in order;
instruments whose fetch failed or returned an empty series are omitted,
so the mapping has one entry per instrument exactly when every fetch
succeeds, and distinct instruments never produce duplicate keys. -/
theorem fetch_stage_entries (symbols : List String)
    (fetch : String → List Candle) :
    (fetchStage symbols fetch).map Prod.fst =
      symbols.filter (fun sym => !(fetch sym).isEmpty) ∧
    ((∀ sym ∈ symbols, (fetch sym).isEmpty = false) →
      (fetchStage symbols fetch).length = symbols.length) ∧
    (symbols.Nodup → ((fetchStage symbols fetch).map Prod.fst).Nodup) := by
  have hmap : ∀ (tl : List String), (fetchStage tl fetch).map Prod.fst =
      tl.filter (fun sym => !(fetch sym).isEmpty) := by
    intro tl
    induction tl with
    | nil => rfl
    | cons a tl ih =>
      simp only [fetchStage] at ih ⊢
      by_cases ha : fetch a = []
      · simpa [List.filterMap_cons, ha, List.filter_cons, List.isEmpty_iff]
          using ih
      · simpa [List.filterMap_cons, ha, List.filter_cons, List.isEmpty_iff]
          using ih
  refine ⟨hmap symbols, ?_, ?_⟩
  · intro hall
    have hfix : symbols.filter (fun sym => !(fetch sym).isEmpty) = symbols :=
      List.filter_eq_self.mpr (fun a ha => by simp [hall a ha])
    calc (fetchStage symbols fetch).length
        = ((fetchStage symbols fetch).map Prod.fst).length :=
          (List.length_map _ _).symm
      _ = (symbols.filter (fun sym => !(fetch sym).isEmpty)).length := by
          rw [hmap symbols]
      _ = symbols.length := by rw [hfix]
  · intro hnd
    rw [hmap symbols]
    exact hnd.filter _

/-- Witness for C5 (amended): two distinct symbols whose fetches both
return a non-empty series produce exactly two entries. -/
theorem fetch_stage_entries_witness :
    (fetchStage ["BTCUSDT", "ETHUSDT"] (fun _ => [oneCandle])).length = 2 :=
  (fetch_stage_entries ["BTCUSDT", "ETHUSDT"] (fun _ => [oneCandle])).2.1
    (fun _ _ => rfl)

/-- C6 counterexample: a successful response whose two rows share one
timestamp is handed on sorted but not deduplicated: the resulting
series is neither strictly ascending in time nor free of duplicate
timestamps. -/
theorem candles_not_deduplicated :
    (fetch_candles (CandlesResponse.ok "00000" dupTsRows)).map Candle.ts =
      [1, 1] ∧
    ¬ List.Pairwise (fun a b : Candle => a.ts < b.ts)
      (fetch_candles (CandlesResponse.ok "00000" dupTsRows)) ∧
    ¬ ((fetch_candles (CandlesResponse.ok "00000" dupTsRows)).map
      Candle.ts).Nodup := by
  refine ⟨by decide, by decide, by decide⟩

/-- C6 amended: a successfully fetched series is a permutation of the
response rows, sorted ascending (non-strictly) by timestamp; it is
strictly ascending with unique timestamps whenever the response
timestamps are pairwise distinct, but no deduplication is performed. -/
theorem candles_sorted_by_ts (rows : List Candle) :
    (fetch_candles (CandlesResponse.ok "00000" rows)).Perm rows ∧
    List.Sorted tsLe (fetch_candles (CandlesResponse.ok "00000" rows)) ∧
    ((rows.map Candle.ts).Nodup →
      List.Pairwise (fun a b : Candle => a.ts < b.ts)
        (fetch_candles (CandlesResponse.ok "00000" rows))) := by
  have hout : fetch_candles (CandlesResponse.ok "00000" rows) =
      rows.insertionSort tsLe := by
    show (if ("00000" : String) = "00000" then rows.insertionSort tsLe else [])
      = rows.insertionSort tsLe
    rw [if_pos rfl]
  rw [hout]
  refine ⟨List.perm_insertionSort tsLe rows,
    List.sorted_insertionSort tsLe rows, ?_⟩
  intro hnd
  have hperm : List.Perm ((rows.insertionSort tsLe).map Candle.ts)
      (rows.map Candle.ts) :=
    (List.perm_insertionSort tsLe rows).map Candle.ts
  have hnd2 : ((rows.insertionSort tsLe).map Candle.ts).Nodup :=
    hperm.nodup_iff.mpr hnd
  have hne : List.Pairwise (fun a b : Candle => a.ts ≠ b.ts)
      (rows.insertionSort tsLe) := List.pairwise_map.mp hnd2
  have hle : List.Pairwise tsLe (rows.insertionSort tsLe) :=
    List.sorted_insertionSort tsLe rows
  exact (hle.and hne).imp (fun h => lt_of_le_of_ne h.1 h.2)

/-- Witness for C6 (amended): two out-of-order rows with distinct
timestamps come back strictly ascending. -/
theorem candles_sorted_by_ts_witness :
    List.Pairwise (fun a b : Candle => a.ts < b.ts)
      (fetch_candles (CandlesResponse.ok "00000" ascRows)) :=
  (candles_sorted_by_ts ascRows).2.2 (by decide)

end MACross
